import Mathlib

/-!
Verification of the resilient change-subscription channel of this repository
(`src/hooks/use-supabase-websocket.ts`, with the plain hook
`src/hooks/use-websocket.ts` modelled where a claim cites it).

The channel is single-threaded and event-driven, so it is embedded as a pure
state machine: the mutable refs and React state of the hook become fields of
`SupabaseWS.SState`, the public operations (`connect`, `disconnect`,
`reconnect`) and the backend-driven callbacks (subscription confirmations,
retry-timer firing) become functions `SState → SState`, and an execution is a
fold of such steps over a list of environment events.  Fallible backend calls
(channel construction) are modelled with `Except`, mirroring the `try/catch`
in the source.  The backend side is made explicit just enough for the resource
claims: `live` is the set of subscriptions currently held on the backend
(`subscribe` inserts, `removeChannel` erases), `released` records every handle
that was passed to `removeChannel`, and `nextId` supplies fresh handles.
-/

namespace SupabaseWS

/-- Connection status, as in `SupabaseWebSocketStatus`:
`"connecting" | "connected" | "disconnected" | "error"`. -/
inductive SStatus
  | connecting
  | connected
  | disconnected
  | error
  deriving DecidableEq, Repr

/-- Subscription confirmation signals delivered by the backend to the
`subscribe` callback. -/
inductive Confirm
  | SUBSCRIBED
  | CHANNEL_ERROR
  | TIMED_OUT
  | CLOSED
  deriving DecidableEq, Repr

/-- The channel state: React state plus the refs of `useSupabaseWebSocket`,
together with the explicit backend/event-loop side.
`status` = the `status` state; `handle` = `channelRef.current`;
`attempts` = `reconnectAttemptsRef.current`; `errLog` counts `onError`
invocations.  `live` is the backend-side set of open subscriptions,
`released` the handles passed to `removeChannel`, `nextId` a fresh-id
supply for newly created channels.  Retry timeouts are modelled by id:
`tracked` = the timeout id held in `reconnectTimeoutRef.current` (possibly
already spent, since the fired callback does not null the ref), `pending` =
every timeout that has been armed by `setTimeout` and neither fired nor was
passed to `clearTimeout` — the failure branch overwrites the ref without
clearing, so `pending` can hold ids the ref no longer tracks — and `tid` is
a fresh timeout-id supply. -/
structure SState where
  status : SStatus
  handle : Option Nat
  nextId : Nat
  live : List Nat
  released : List Nat
  tracked : Option Nat
  pending : List Nat
  tid : Nat
  attempts : Nat
  errLog : Nat
  deriving DecidableEq, Repr

/-- `maxReconnectAttempts = 10` in the source. -/
def maxReconnectAttempts : Nat := 10

/-- Initial state: `useState("disconnected")`, no channel, no timeouts,
zero attempts. -/
def init : SState :=
  { status := .disconnected, handle := none, nextId := 0, live := [],
    released := [], tracked := none, pending := [], tid := 0,
    attempts := 0, errLog := 0 }

/-- The cleanup block that runs at the top of `connect` and inside
`disconnect`:
`if (channelRef.current) { supabase.removeChannel(channelRef.current);
channelRef.current = null; setChannel(null) }`. -/
def cleanupChannel (st : SState) : SState :=
  match st.handle with
  | some h =>
      { st with handle := none, live := st.live.erase h,
                released := h :: st.released }
  | none => st

/-- The body of the `try` block of `connect`: set status to `connecting`,
build the channel (three `postgres_changes` listeners) and call
`subscribe`, then store the new channel in `channelRef`.  The backend
construction may throw; `createOk = false` models that throw. -/
def connectTry (createOk : Bool) (st : SState) : Except Nat SState :=
  if createOk then
    .ok { st with status := .connecting, handle := some st.nextId,
                  live := st.nextId :: st.live, nextId := st.nextId + 1 }
  else
    .error 1

/-- `connect()`.  Early-returns with status `disconnected` when `enabled` is
false; otherwise cleans up any existing channel, then runs the `try` block;
the `catch` sets status `error` and invokes `onError`. -/
def connect (enabled createOk : Bool) (st : SState) : SState :=
  if !enabled then
    { st with status := .disconnected }
  else
    let st1 := cleanupChannel st
    match connectTry createOk st1 with
    | .ok s => s
    | .error _ => { st1 with status := .error, errLog := st1.errLog + 1 }

/-- The `subscribe((status, err) => ...)` callback body, run when the backend
delivers a confirmation for the live channel.  The failure branch assigns
`reconnectTimeoutRef.current = setTimeout(...)` — a fresh timeout becomes
pending and tracked, and the previously tracked timeout, if still pending,
is NOT cleared: it leaks, staying pending but untracked. -/
def onConfirm (c : Confirm) (st : SState) : SState :=
  match c with
  | .SUBSCRIBED => { st with status := .connected, attempts := 0 }
  | .CHANNEL_ERROR | .TIMED_OUT =>
      let st1 := { st with status := .error, errLog := st.errLog + 1 }
      if st1.attempts < maxReconnectAttempts then
        { st1 with attempts := st1.attempts + 1,
                   pending := st1.tid :: st1.pending,
                   tracked := some st1.tid, tid := st1.tid + 1 }
      else
        st1
  | .CLOSED => { st with status := .disconnected }

/-- The timer-clearing block of `disconnect`:
`if (reconnectTimeoutRef.current) { clearTimeout(reconnectTimeoutRef.current);
reconnectTimeoutRef.current = null }` — only the tracked timeout is
cancelled; a leaked pending timeout survives. -/
def clearTracked (st : SState) : SState :=
  match st.tracked with
  | some t => { st with pending := st.pending.erase t, tracked := none }
  | none => st

/-- `disconnect()`: clear the tracked retry timeout, remove the channel if
one is held, set status `disconnected`. -/
def disconnect (st : SState) : SState :=
  let st1 := clearTracked st
  let st2 := cleanupChannel st1
  { st2 with status := .disconnected }

/-- The state of `reconnect()` just before its delayed `connect()` runs:
`disconnect()` has executed and `reconnectAttemptsRef.current = 0`. -/
def reconnectPre (st : SState) : SState :=
  { disconnect st with attempts := 0 }

/-- `reconnect()`: `disconnect(); reconnectAttemptsRef.current = 0;
setTimeout(() => connect(), 100)` — modelled as the composition, the settling
delay abstracted away. -/
def reconnect (enabled createOk : Bool) (st : SState) : SState :=
  connect enabled createOk (reconnectPre st)

/-- The `useEffect` reacting to the `enabled` flag:
`if (enabled) connect() else disconnect()`. -/
def enabledEffect (enabled createOk : Bool) (st : SState) : SState :=
  if enabled then connect enabled createOk st else disconnect st

/-- Environment events driving a channel run: the public operations, a
subscription confirmation for handle `h`, and timeout `t` firing (`en`/`co`
carry the `enabled` flag and backend behaviour seen by the `connect` that
the event triggers). -/
inductive Ev
  | conn (en co : Bool)
  | disc
  | recon (en co : Bool)
  | confirm (h : Nat) (c : Confirm)
  | fire (t : Nat) (en co : Bool)
  deriving DecidableEq, Repr

/-- Whether an event is a manual (re)connection request. -/
def Ev.isManual : Ev → Bool
  | .conn _ _ => true
  | .recon _ _ => true
  | _ => false

/-- Whether an event is a failure confirmation or a timeout firing (the
events of a retry flow with no intervening success and no manual
operation). -/
def Ev.isFailFlow : Ev → Bool
  | .confirm _ .CHANNEL_ERROR => true
  | .confirm _ .TIMED_OUT => true
  | .fire _ _ _ => true
  | _ => false

/-- One step of the channel under an environment event.  A confirmation is
delivered only to the currently held channel (`removeChannel` detaches the
callback of a removed one).  Any still-pending timeout — tracked or leaked —
may fire: it leaves the pending set and its callback runs `connect()` (the
ref is not nulled by the callback, so `tracked` is untouched); a timeout
that fired or was cleared can never fire. -/
def step (st : SState) : Ev → SState
  | .conn en co => connect en co st
  | .disc => disconnect st
  | .recon en co => reconnect en co st
  | .confirm h c => if st.handle = some h then onConfirm c st else st
  | .fire t en co =>
      if t ∈ st.pending then
        connect en co { st with pending := st.pending.erase t }
      else
        st

/-- A run of the channel over a list of environment events. -/
def run (st : SState) (evs : List Ev) : SState :=
  evs.foldl step st

/-- Structural invariant of the channel: the backend-side `live` set is
exactly the held handle (so there is at most one live subscription), and
every held handle was drawn from the fresh-id supply. -/
def Inv (st : SState) : Prop :=
  st.live = st.handle.toList ∧ ∀ h, st.handle = some h → h < st.nextId

/-- No leaked retry timeout: every pending timeout is the tracked one, so
`clearTimeout` on the ref cancels everything pending.  This fails exactly
when the failure branch has overwritten the ref while its previous timeout
was still pending. -/
def noLeakedTimer (st : SState) : Prop :=
  st.pending = [] ∨ ∃ t, st.tracked = some t ∧ st.pending = [t]

end SupabaseWS

namespace Dispatch

/-- Change-event kinds, the three `postgres_changes` listeners. -/
inductive Kind
  | INSERT
  | UPDATE
  | DELETE
  deriving DecidableEq, Repr

/-- Outcome of running a user handler on a payload: return normally, or
throw an exception (carrying an error code). -/
inductive HRes
  | ok
  | thrown (e : Nat)
  deriving DecidableEq, Repr

/-- The user handlers held in `callbacksRef.current`; payloads are modelled
as naturals. -/
structure CBs where
  onInsert : Nat → HRes
  onUpdate : Nat → HRes
  onDelete : Nat → HRes

/-- Channel-side dispatch state: `log` records each handler invocation as
(kind routed, payload), `errCalls` counts `onError` invocations made from the
dispatch path. -/
structure DState where
  log : List (Kind × Nat)
  errCalls : Nat
  deriving DecidableEq, Repr

/-- The per-kind routing done by the three `.on("postgres_changes", ...)`
registrations: the INSERT listener invokes `onInsert`, the UPDATE listener
`onUpdate`, the DELETE listener `onDelete`. -/
def invoke (cbs : CBs) (k : Kind) (p : Nat) : HRes :=
  match k with
  | .INSERT => cbs.onInsert p
  | .UPDATE => cbs.onUpdate p
  | .DELETE => cbs.onDelete p

/-- One dispatch callback run, as in the source:
`(payload) => { callbacksRef.current.onInsert?.(payload) }` — the matching
handler is invoked directly, with no `try/catch` around it.  The second
component is the exception escaping the callback, if the handler threw;
`errCalls` is never touched here because the dispatch path never calls
`onError`. -/
def dispatchOne (cbs : CBs) (e : Kind × Nat) (st : DState) :
    DState × Option Nat :=
  let st1 := { st with log := st.log ++ [e] }
  match invoke cbs e.1 e.2 with
  | .ok => (st1, none)
  | .thrown er => (st1, some er)

/-- The backend delivering a sequence of change events to the channel's
listeners, in arrival order; collects every exception that escaped a
dispatch callback. -/
def dispatchList (cbs : CBs) (es : List (Kind × Nat)) (st : DState) :
    DState × List Nat :=
  match es with
  | [] => (st, [])
  | e :: rest =>
      let r1 := dispatchOne cbs e st
      let r2 := dispatchList cbs rest r1.1
      (r2.1, r1.2.toList ++ r2.2)

end Dispatch

namespace PlainWS

/-- Socket ready state, coarse model of `WebSocket.readyState`. -/
inductive RS
  | connecting
  | opened
  | closed
  deriving DecidableEq, Repr

/-- State of `useWebSocket` (`src/hooks/use-websocket.ts`): `status` state,
`ws` = `wsRef.current` with its ready state, `timer` =
`reconnectTimeoutRef.current` pending, `attempts` =
`reconnectAttemptsRef.current`, `manualClose` = `isManualCloseRef.current`,
`shouldRec` = `shouldReconnectRef.current`. -/
structure WState where
  status : SupabaseWS.SStatus
  ws : Option RS
  timer : Bool
  attempts : Nat
  manualClose : Bool
  shouldRec : Bool
  deriving DecidableEq, Repr

/-- `connect()` of the plain hook: early return if the held socket is OPEN;
otherwise set status `connecting` and construct a new socket (`createOk =
false` models the constructor throwing, caught by the `catch` which sets
status `error`). -/
def wconnect (createOk : Bool) (st : WState) : WState :=
  if st.ws = some .opened then
    st
  else if createOk then
    { st with status := .connecting, ws := some .connecting }
  else
    { st with status := .error }

/-- The `ws.onopen` handler; fires only for an existing socket. -/
def wOnOpen (st : WState) : WState :=
  { st with status := .connected, attempts := 0, ws := some .opened }

/-- The `ws.onclose` handler: set status `disconnected`, then retry only if
the close was not manual, reconnection is enabled and attempts remain;
otherwise, on exhaustion, set status `error`.  It may fire on a socket that
`disconnect` already closed (the stop flags exist for exactly that case). -/
def wOnClose (maxA : Nat) (st : WState) : WState :=
  let st1 := { st with status := .disconnected }
  if !st1.manualClose && st1.shouldRec && decide (st1.attempts < maxA) then
    { st1 with attempts := st1.attempts + 1, timer := true }
  else if maxA ≤ st1.attempts then
    { st1 with status := .error }
  else
    st1

/-- The `ws.onerror` handler. -/
def wOnError (st : WState) : WState :=
  { st with status := .error }

/-- `disconnect()` of the plain hook: set the manual-close stop flag, clear
the should-reconnect flag, cancel the retry timer, close and drop the
socket, set status `disconnected`. -/
def wdisconnect (st : WState) : WState :=
  { st with manualClose := true, shouldRec := false, timer := false,
            ws := none, status := .disconnected }

/-- Events the environment can deliver to the plain hook without a manual
`connect`/`reconnect`: socket callbacks, the retry timer firing, and
repeated `disconnect` calls.  `openEv` fires only on an existing socket;
`closeEv`/`errEv` may fire late, after `disconnect` dropped the ref. -/
inductive WEv
  | openEv
  | closeEv
  | errEv
  | fireEv (co : Bool)
  | discEv
  deriving DecidableEq, Repr

/-- One step of the plain hook under such an event. -/
def wstep (maxA : Nat) (st : WState) : WEv → WState
  | .openEv => if st.ws.isSome then wOnOpen st else st
  | .closeEv => wOnClose maxA st
  | .errEv => wOnError st
  | .fireEv co =>
      if st.timer then wconnect co { st with timer := false } else st
  | .discEv => wdisconnect st

/-- A run of the plain hook over a list of such events. -/
def wrun (maxA : Nat) (st : WState) (evs : List WEv) : WState :=
  evs.foldl (wstep maxA) st

end PlainWS

namespace SupabaseWS

/-- A concrete state holding one live handle (handle 0), as reached after a
successful first connection. -/
def stLive : SState :=
  { status := .connected, handle := some 0, nextId := 1, live := [0],
    released := [], tracked := none, pending := [], tid := 0,
    attempts := 0, errLog := 0 }

/-- A concrete exhausted state: ten consecutive failures have been reported,
every armed retry has fired (the ref still holds the spent last timeout id),
and the eleventh failure armed nothing. -/
def stExh : SState :=
  { status := .error, handle := some 0, nextId := 1, live := [0],
    released := [], tracked := some 9, pending := [], tid := 10,
    attempts := 10, errLog := 11 }

/-- The event trace that leaks a retry timeout: two failure confirmations on
one subscription within the retry window — the second `setTimeout`
assignment overwrites the ref while timeout 0 is still pending. -/
def leakTrace : List Ev :=
  [.conn true true, .confirm 0 .CHANNEL_ERROR, .confirm 0 .TIMED_OUT]

end SupabaseWS

namespace Dispatch

/-- Handlers that all return normally. -/
def cbsOk : CBs :=
  { onInsert := fun _ => .ok, onUpdate := fun _ => .ok,
    onDelete := fun _ => .ok }

/-- Handlers whose `onInsert` throws (error code 7). -/
def cbsThrow : CBs :=
  { onInsert := fun _ => .thrown 7, onUpdate := fun _ => .ok,
    onDelete := fun _ => .ok }

/-- The empty dispatch state. -/
def d0 : DState := { log := [], errCalls := 0 }

end Dispatch

namespace SupabaseWS

@[simp] theorem cleanupChannel_status (st : SState) :
    (cleanupChannel st).status = st.status := by
  obtain ⟨s, h, n, l, r, tk, p, ti, a, e⟩ := st
  cases h <;> rfl

@[simp] theorem cleanupChannel_handle (st : SState) :
    (cleanupChannel st).handle = none := by
  obtain ⟨s, h, n, l, r, tk, p, ti, a, e⟩ := st
  cases h <;> rfl

@[simp] theorem cleanupChannel_nextId (st : SState) :
    (cleanupChannel st).nextId = st.nextId := by
  obtain ⟨s, h, n, l, r, tk, p, ti, a, e⟩ := st
  cases h <;> rfl

@[simp] theorem cleanupChannel_tracked (st : SState) :
    (cleanupChannel st).tracked = st.tracked := by
  obtain ⟨s, h, n, l, r, tk, p, ti, a, e⟩ := st
  cases h <;> rfl

@[simp] theorem cleanupChannel_pending (st : SState) :
    (cleanupChannel st).pending = st.pending := by
  obtain ⟨s, h, n, l, r, tk, p, ti, a, e⟩ := st
  cases h <;> rfl

@[simp] theorem cleanupChannel_tid (st : SState) :
    (cleanupChannel st).tid = st.tid := by
  obtain ⟨s, h, n, l, r, tk, p, ti, a, e⟩ := st
  cases h <;> rfl

@[simp] theorem cleanupChannel_attempts (st : SState) :
    (cleanupChannel st).attempts = st.attempts := by
  obtain ⟨s, h, n, l, r, tk, p, ti, a, e⟩ := st
  cases h <;> rfl

@[simp] theorem cleanupChannel_errLog (st : SState) :
    (cleanupChannel st).errLog = st.errLog := by
  obtain ⟨s, h, n, l, r, tk, p, ti, a, e⟩ := st
  cases h <;> rfl

theorem cleanupChannel_released (st : SState) (h : Nat)
    (hh : st.handle = some h) :
    (cleanupChannel st).released = h :: st.released := by
  simp [cleanupChannel, hh]

@[simp] theorem clearTracked_status (st : SState) :
    (clearTracked st).status = st.status := by
  obtain ⟨s, h, n, l, r, tk, p, ti, a, e⟩ := st
  cases tk <;> rfl

@[simp] theorem clearTracked_handle (st : SState) :
    (clearTracked st).handle = st.handle := by
  obtain ⟨s, h, n, l, r, tk, p, ti, a, e⟩ := st
  cases tk <;> rfl

@[simp] theorem clearTracked_nextId (st : SState) :
    (clearTracked st).nextId = st.nextId := by
  obtain ⟨s, h, n, l, r, tk, p, ti, a, e⟩ := st
  cases tk <;> rfl

@[simp] theorem clearTracked_attempts (st : SState) :
    (clearTracked st).attempts = st.attempts := by
  obtain ⟨s, h, n, l, r, tk, p, ti, a, e⟩ := st
  cases tk <;> rfl

@[simp] theorem clearTracked_errLog (st : SState) :
    (clearTracked st).errLog = st.errLog := by
  obtain ⟨s, h, n, l, r, tk, p, ti, a, e⟩ := st
  cases tk <;> rfl

@[simp] theorem clearTracked_live (st : SState) :
    (clearTracked st).live = st.live := by
  obtain ⟨s, h, n, l, r, tk, p, ti, a, e⟩ := st
  cases tk <;> rfl

theorem clearTracked_tracked_none (st : SState) (h : st.tracked = none) :
    clearTracked st = st := by
  simp [clearTracked, h]

theorem clearTracked_pending_empty (st : SState) (h : st.pending = []) :
    (clearTracked st).pending = [] := by
  unfold clearTracked
  cases st.tracked <;> simp [h]

theorem clearTracked_pending_noLeak (st : SState) (h : noLeakedTimer st) :
    (clearTracked st).pending = [] := by
  rcases h with h | ⟨t, h1, h2⟩
  · exact clearTracked_pending_empty st h
  · simp [clearTracked, h1, h2]

@[simp] theorem disconnect_status (st : SState) :
    (disconnect st).status = .disconnected := rfl

@[simp] theorem disconnect_handle (st : SState) :
    (disconnect st).handle = none := by
  simp [disconnect]

@[simp] theorem disconnect_tracked (st : SState) :
    (disconnect st).tracked = none := by
  unfold disconnect clearTracked
  cases hk : st.tracked <;> simp [hk]

@[simp] theorem disconnect_attempts (st : SState) :
    (disconnect st).attempts = st.attempts := by
  simp [disconnect]

@[simp] theorem disconnect_nextId (st : SState) :
    (disconnect st).nextId = st.nextId := by
  simp [disconnect]

theorem disconnect_pending_empty (st : SState) (h : st.pending = []) :
    (disconnect st).pending = [] := by
  simp [disconnect, clearTracked_pending_empty st h]

theorem disconnect_pending_noLeak (st : SState) (h : noLeakedTimer st) :
    (disconnect st).pending = [] := by
  simp [disconnect, clearTracked_pending_noLeak st h]

@[simp] theorem connect_attempts (en co : Bool) (st : SState) :
    (connect en co st).attempts = st.attempts := by
  cases en <;> cases co <;> simp [connect, connectTry]

@[simp] theorem connect_false_eq (co : Bool) (st : SState) :
    connect false co st = { st with status := .disconnected } := rfl

/-- Counterexample to claim C6: on the concrete leaked-timeout trace — two
failure confirmations on one subscription within the retry window, so the
second `setTimeout` assignment overwrote the ref while timeout 0 was still
pending — `reconnect()`'s cancellation step leaves timeout 0 pending, and
that stale timeout later fires its own `connect()`, superseding the fresh
subscription that `reconnect()` itself installed (handle 1 is released and
replaced by handle 2). -/
theorem reconnect_leaked_timer_cex :
    (reconnectPre (run init leakTrace)).pending = [0] ∧
    (run init (leakTrace ++ [.recon true true])).handle = some 1 ∧
    (run init (leakTrace ++ [.recon true true, .fire 0 true true])).handle
      = some 2 ∧
    1 ∈ (run init
      (leakTrace ++ [.recon true true, .fire 0 true true])).released := by
  decide

/-- Claim C6 as amended: `reconnect()` first cancels the tracked pending
retry timeout — the one `reconnectTimeoutRef` holds, which is every pending
retry whenever none has been leaked by a ref overwrite — and resets
`attemptCount` to 0 and releases the handle, before it initiates the new
connection attempt; a leaked pending timeout is not cancelled. -/
theorem reconnect_resets_before_connecting (st : SState) (en co : Bool)
    (hnl : noLeakedTimer st) :
    ∃ mid : SState, reconnect en co st = connect en co mid ∧
      mid.tracked = none ∧ mid.pending = [] ∧ mid.attempts = 0 ∧
      mid.handle = none := by
  refine ⟨reconnectPre st, rfl, ?_, ?_, rfl, ?_⟩
  · simp [reconnectPre]
  · simp [reconnectPre, disconnect_pending_noLeak st hnl]
  · simp [reconnectPre]

/-- Witness for the amended C6 at the concrete live state (no timeout
pending, hence none leaked). -/
theorem reconnect_resets_before_connecting_witness :
    noLeakedTimer stLive ∧
    ∃ mid : SState, reconnect true true stLive = connect true true mid ∧
      mid.tracked = none ∧ mid.pending = [] ∧ mid.attempts = 0 ∧
      mid.handle = none :=
  ⟨Or.inl rfl, reconnect_resets_before_connecting stLive true true
    (Or.inl rfl)⟩

/-- Claim C8: no public operation throws.  The fallible backend call inside
`connect` is the channel construction, modelled as `connectTry` returning
`Except`; the `catch` of the source discharges it, so `connect` (and with it
`reconnect`, `disconnect`) is a total function into `SState`.  When the
construction throws (`createOk = false`) `connect` still returns normally,
with status `error`, one more `onError` call, and no handle installed; on
the normal path it returns with status `connecting`; with `enabled = false`
it returns with status `disconnected` and the state otherwise untouched. -/
theorem public_ops_never_throw (st : SState) (co : Bool) :
    connectTry false (cleanupChannel st) = Except.error 1 ∧
    (connect true false st).status = .error ∧
    (connect true false st).errLog = st.errLog + 1 ∧
    (connect true false st).handle = none ∧
    (connect true true st).status = .connecting ∧
    connect false co st = { st with status := .disconnected } := by
  refine ⟨rfl, ?_, ?_, ?_, ?_, rfl⟩ <;> simp [connect, connectTry]

/-- Counterexample to claim C9: on the concrete leaked-timeout trace, the
true→false toggle (which runs `disconnect()`) leaves leaked timeout 0
pending, and when that timeout later fires it runs the stale `connect`
closure — captured with `enabled = true` — which performs network activity
while the descriptor is disabled: it creates a fresh subscription (handle 1
becomes live, the id supply moves). -/
theorem disabled_toggle_leaked_timer_cex :
    (enabledEffect false true (run init leakTrace)).pending = [0] ∧
    (step (enabledEffect false true (run init leakTrace))
      (.fire 0 true true)).handle = some 1 ∧
    (step (enabledEffect false true (run init leakTrace))
      (.fire 0 true true)).live = [1] ∧
    (step (enabledEffect false true (run init leakTrace))
      (.fire 0 true true)).status = .connecting := by
  decide

/-- Claim C9 as amended: with `enabled = false`, `connect()` sets status
`disconnected` and performs no network activity (every field other than
`status` — the handle, the backend-side `live` set, the id supplies,
timeouts, counters — is untouched); the `enabled` effect runs `disconnect`
on a true→false toggle, which releases the held handle and cancels the
tracked pending retry — all pending retries whenever none has been leaked
by a ref overwrite, while a leaked timeout survives the toggle — and runs
`connect` on a false→true toggle. -/
theorem disabled_connect_and_toggles (st : SState) (co : Bool) (h : Nat)
    (hh : st.handle = some h) :
    connect false co st = { st with status := .disconnected } ∧
    enabledEffect false co st = disconnect st ∧
    h ∈ (disconnect st).released ∧
    (disconnect st).tracked = none ∧
    (noLeakedTimer st → (disconnect st).pending = []) ∧
    (disconnect st).handle = none ∧
    (disconnect st).status = .disconnected ∧
    enabledEffect true co st = connect true co st := by
  refine ⟨rfl, rfl, ?_, by simp, disconnect_pending_noLeak st, by simp, rfl,
    rfl⟩
  have h1 : (cleanupChannel (clearTracked st)).released
      = h :: (clearTracked st).released := by
    apply cleanupChannel_released
    simp [hh]
  have h2 : (clearTracked st).released = st.released := by
    obtain ⟨s, hd, n, l, r, tk, p, ti, a, e⟩ := st
    cases tk <;> rfl
  simp [disconnect, h1, h2]

/-- Witness for the amended C9 at the concrete live state: handle 0 is
released by the true→false toggle and no retry stays pending. -/
theorem disabled_connect_and_toggles_witness :
    stLive.handle = some 0 ∧ noLeakedTimer stLive ∧
    0 ∈ (disconnect stLive).released ∧ (disconnect stLive).pending = [] :=
  ⟨rfl, Or.inl rfl, (disabled_connect_and_toggles stLive true 0 rfl).2.2.1,
   (disabled_connect_and_toggles stLive true 0 rfl).2.2.2.2.1 (Or.inl rfl)⟩

/-- Claim C10: a `CLOSED` confirmation for the live channel only sets status
`disconnected` — in particular it arms no retry timeout (the `tracked` and
`pending` fields of the result equal the prior ones) — and a confirmation
can put a new timeout into the pending set only if it is `CHANNEL_ERROR` or
`TIMED_OUT` (the failure branch holds the sole `setTimeout` site). -/
theorem closed_confirmation_never_retries (st : SState) (h : Nat)
    (c : Confirm) (t : Nat) :
    (st.handle = some h →
      step st (.confirm h .CLOSED) = { st with status := .disconnected }) ∧
    (t ∈ (step st (.confirm h c)).pending →
      t ∈ st.pending ∨ c = .CHANNEL_ERROR ∨ c = .TIMED_OUT) := by
  constructor
  · intro hh
    simp [step, hh, onConfirm]
  · intro ht
    by_cases hh : st.handle = some h
    · cases c
      · simp [step, hh, onConfirm] at ht
        exact Or.inl ht
      · exact Or.inr (Or.inl rfl)
      · exact Or.inr (Or.inr rfl)
      · simp [step, hh, onConfirm] at ht
        exact Or.inl ht
    · simp [step, hh] at ht
      exact Or.inl ht

/-- Witness for C10 at the concrete live state: `CLOSED` yields
`disconnected` with no timeout change, and the timeout pending after a
`CHANNEL_ERROR` traces back to that failure confirmation. -/
theorem closed_confirmation_never_retries_witness :
    (step stLive (.confirm 0 .CLOSED) =
      { stLive with status := .disconnected }) ∧
    (0 ∈ stLive.pending ∨ Confirm.CHANNEL_ERROR = .CHANNEL_ERROR ∨
      Confirm.CHANNEL_ERROR = .TIMED_OUT) :=
  ⟨(closed_confirmation_never_retries stLive 0 .SUBSCRIBED 0).1 rfl,
   (closed_confirmation_never_retries stLive 0 .CHANNEL_ERROR 0).2
     (by decide)⟩

/-- Counterexample to claim C2: at the concrete state `stLive`, which holds
live handle 0, `connect()` is not a no-op — it releases handle 0, installs
the fresh handle 1, and moves status from `connected` to `connecting`. -/
theorem connect_not_idempotent_cex :
    connect true true stLive ≠ stLive ∧
    (connect true true stLive).handle = some 1 ∧
    0 ∈ (connect true true stLive).released ∧
    (connect true true stLive).status = .connecting := by
  decide

/-- Claim C2 as amended: in the enhanced channel, calling `connect()` while
a live handle is open is not a no-op; it first releases the held handle
(never leaving two live handles), then creates a fresh subscription with a
new handle and sets status to `connecting`, leaving `attemptCount`
unchanged.  Only the plain hook's `connect()` is a no-op while its socket is
OPEN. -/
theorem connect_replaces_live_handle (st : SState) (h : Nat) (co : Bool)
    (hh : st.handle = some h) :
    (h ∈ (connect true co st).released ∧
     (connect true co st).attempts = st.attempts ∧
     (connect true true st).handle = some st.nextId ∧
     (connect true true st).status = .connecting ∧
     (connect true true st).nextId = st.nextId + 1) ∧
    (∀ (wst : PlainWS.WState) (co2 : Bool), wst.ws = some PlainWS.RS.opened →
      PlainWS.wconnect co2 wst = wst) := by
  have hrel : (cleanupChannel st).released = h :: st.released :=
    cleanupChannel_released st h hh
  refine ⟨⟨?_, by simp, ?_, ?_, ?_⟩, ?_⟩
  · cases co <;> simp [connect, connectTry, hrel]
  · simp [connect, connectTry]
  · simp [connect, connectTry]
  · simp [connect, connectTry]
  · intro wst co2 hws
    simp [PlainWS.wconnect, hws]

/-- Witness for the amended C2 at the concrete live state, and at a plain
hook state with an OPEN socket. -/
theorem connect_replaces_live_handle_witness :
    stLive.handle = some 0 ∧ 0 ∈ (connect true true stLive).released ∧
    (connect true true stLive).handle = some stLive.nextId ∧
    PlainWS.wconnect true
      { status := .connected, ws := some .opened, timer := false,
        attempts := 0, manualClose := false, shouldRec := true } =
      { status := .connected, ws := some .opened, timer := false,
        attempts := 0, manualClose := false, shouldRec := true } :=
  ⟨rfl, (connect_replaces_live_handle stLive 0 true rfl).1.1,
   (connect_replaces_live_handle stLive 0 true rfl).1.2.2.1,
   (connect_replaces_live_handle stLive 0 true rfl).2
     { status := .connected, ws := some .opened, timer := false,
       attempts := 0, manualClose := false, shouldRec := true } true rfl⟩

end SupabaseWS

namespace Dispatch

theorem dispatchList_log_errCalls (cbs : CBs) (es : List (Kind × Nat)) :
    ∀ st : DState, (dispatchList cbs es st).1.log = st.log ++ es ∧
      (dispatchList cbs es st).1.errCalls = st.errCalls := by
  induction es with
  | nil => intro st; simp [dispatchList]
  | cons e rest ih =>
      intro st
      have h1 : (dispatchOne cbs e st).1 =
          { st with log := st.log ++ [e] } := by
        unfold dispatchOne
        cases invoke cbs e.1 e.2 <;> rfl
      have h2 := ih (dispatchOne cbs e st).1
      simp [dispatchList, h1] at h2 ⊢
      exact ⟨h2.1, h2.2⟩

/-- Claim C7: when no handler throws, delivering a sequence of change events
dispatches each one to exactly the handler matching its kind (per `invoke`,
INSERT→`onInsert`, UPDATE→`onUpdate`, DELETE→`onDelete`), synchronously and
in exactly arrival order, with no buffering, no reordering, and no
exception escaping. -/
theorem events_dispatched_in_order (cbs : CBs) (es : List (Kind × Nat))
    (st : DState)
    (hi : ∀ p, cbs.onInsert p = .ok) (hu : ∀ p, cbs.onUpdate p = .ok)
    (hd : ∀ p, cbs.onDelete p = .ok) :
    dispatchList cbs es st = ({ st with log := st.log ++ es }, []) := by
  induction es generalizing st with
  | nil => simp [dispatchList]
  | cons e rest ih =>
      have hok : invoke cbs e.1 e.2 = .ok := by
        cases h : e.1 <;> simp [invoke, h, hi, hu, hd]
      simp [dispatchList, dispatchOne, hok, ih]

/-- Witness for C7: three events of the three kinds are dispatched in order
to the matched handlers. -/
theorem events_dispatched_in_order_witness :
    (∀ p, cbsOk.onInsert p = HRes.ok) ∧
    dispatchList cbsOk [(.INSERT, 1), (.UPDATE, 2), (.DELETE, 3)] d0 =
      ({ log := [(.INSERT, 1), (.UPDATE, 2), (.DELETE, 3)], errCalls := 0 },
       []) :=
  ⟨fun _ => rfl,
   events_dispatched_in_order cbsOk [(.INSERT, 1), (.UPDATE, 2), (.DELETE, 3)]
     d0 (fun _ => rfl) (fun _ => rfl) (fun _ => rfl)⟩

/-- Counterexample to claim C1: with a handler that throws (`cbsThrow`, whose
`onInsert` throws error 7), dispatching an INSERT event does not catch the
exception — it escapes the dispatch callback (second component `some 7`
instead of `none`) — and `onError` is not invoked (`errCalls` stays 0). -/
theorem handler_exception_not_caught_cex :
    dispatchOne cbsThrow (.INSERT, 0) d0 =
      ({ log := [(.INSERT, 0)], errCalls := 0 }, some 7) := by
  decide

/-- Claim C1 as amended: a handler exception is not caught at the dispatch
boundary — it propagates out of the channel's per-event callback and
`onError` is never invoked from the dispatch path; the callbacks keep no
blocking state, so if the backend keeps delivering, every event (before and
after a throw) still reaches its matching handler in order. -/
theorem handler_exception_escapes (cbs : CBs) (e : Kind × Nat) (st : DState)
    (er : Nat) (rest : List (Kind × Nat))
    (hthrow : invoke cbs e.1 e.2 = .thrown er) :
    (dispatchOne cbs e st).2 = some er ∧
    (dispatchOne cbs e st).1.errCalls = st.errCalls ∧
    (dispatchList cbs (e :: rest) st).1.log = st.log ++ e :: rest := by
  refine ⟨by simp [dispatchOne, hthrow], by simp [dispatchOne, hthrow], ?_⟩
  exact (dispatchList_log_errCalls cbs (e :: rest) st).1

/-- Witness for the amended C1 at the throwing handlers: the exception
escapes and a subsequent UPDATE event is still recorded as dispatched. -/
theorem handler_exception_escapes_witness :
    invoke cbsThrow Kind.INSERT 0 = HRes.thrown 7 ∧
    (dispatchOne cbsThrow (.INSERT, 0) d0).2 = some 7 ∧
    (dispatchList cbsThrow [(.INSERT, 0), (.UPDATE, 2)] d0).1.log =
      [(.INSERT, 0), (.UPDATE, 2)] :=
  ⟨rfl,
   (handler_exception_escapes cbsThrow (.INSERT, 0) d0 7 [(.UPDATE, 2)]
     rfl).1,
   (handler_exception_escapes cbsThrow (.INSERT, 0) d0 7 [(.UPDATE, 2)]
     rfl).2.2⟩

end Dispatch

namespace SupabaseWS

theorem run_cons (st : SState) (e : Ev) (evs : List Ev) :
    run st (e :: evs) = run (step st e) evs := rfl

theorem step_nonmanual_preserve (st : SState) (e : Ev)
    (hm : e.isManual = false) (ht : st.pending = [])
    (hh : st.handle = none) :
    (step st e).pending = [] ∧ (step st e).handle = none ∧
    (step st e).nextId = st.nextId := by
  cases e with
  | conn en co => simp [Ev.isManual] at hm
  | disc =>
      exact ⟨disconnect_pending_empty st ht, by simp [step], by simp [step]⟩
  | recon en co => simp [Ev.isManual] at hm
  | confirm h c => simp [step, hh, ht]
  | fire t en co => simp [step, ht, hh]

theorem run_nonmanual_preserve (evs : List Ev) :
    ∀ st : SState, (∀ e ∈ evs, e.isManual = false) →
    st.pending = [] → st.handle = none →
    (run st evs).pending = [] ∧ (run st evs).handle = none ∧
    (run st evs).nextId = st.nextId := by
  induction evs with
  | nil => intro st _ ht hh; exact ⟨ht, hh, rfl⟩
  | cons e rest ih =>
      intro st hm ht hh
      have h1 := step_nonmanual_preserve st e (hm e (by simp)) ht hh
      have h2 := ih (step st e) (fun x hx => hm x (by simp [hx])) h1.1 h1.2.1
      rw [run_cons]
      exact ⟨h2.1, h2.2.1, h2.2.2.trans h1.2.2⟩

theorem step_attempts_le (st : SState) (e : Ev)
    (h : st.attempts ≤ maxReconnectAttempts) :
    (step st e).attempts ≤ maxReconnectAttempts := by
  cases e with
  | conn en co => simpa [step] using h
  | disc => simpa [step] using h
  | recon en co => simp [step, reconnect, reconnectPre]
  | confirm hd c =>
      by_cases hh : st.handle = some hd
      · cases c with
        | SUBSCRIBED => simp [step, hh, onConfirm]
        | CHANNEL_ERROR =>
            by_cases hlt : st.attempts < maxReconnectAttempts
            · simp only [step, hh, if_pos rfl, onConfirm]
              simp [hlt]
              omega
            · simp only [step, hh, if_pos rfl, onConfirm]
              simp [hlt]
              exact h
        | TIMED_OUT =>
            by_cases hlt : st.attempts < maxReconnectAttempts
            · simp only [step, hh, if_pos rfl, onConfirm]
              simp [hlt]
              omega
            · simp only [step, hh, if_pos rfl, onConfirm]
              simp [hlt]
              exact h
        | CLOSED => simpa [step, hh, onConfirm] using h
      · simpa [step, hh] using h
  | fire t en co =>
      by_cases ht : t ∈ st.pending
      · simpa [step, ht] using h
      · simpa [step, ht] using h

theorem run_attempts_le (evs : List Ev) :
    ∀ st : SState, st.attempts ≤ maxReconnectAttempts →
    (run st evs).attempts ≤ maxReconnectAttempts := by
  induction evs with
  | nil => intro st h; exact h
  | cons e rest ih =>
      intro st h
      rw [run_cons]
      exact ih (step st e) (step_attempts_le st e h)

theorem step_exhausted_preserve (st : SState) (e : Ev)
    (hf : e.isFailFlow = true) (ha : st.attempts = maxReconnectAttempts)
    (ht : st.pending = []) (hs : st.status = .error) :
    (step st e).attempts = maxReconnectAttempts ∧
    (step st e).pending = [] ∧ (step st e).status = .error := by
  cases e with
  | conn en co => simp [Ev.isFailFlow] at hf
  | disc => simp [Ev.isFailFlow] at hf
  | recon en co => simp [Ev.isFailFlow] at hf
  | confirm hd c =>
      by_cases hh : st.handle = some hd
      · cases c with
        | SUBSCRIBED => simp [Ev.isFailFlow] at hf
        | CHANNEL_ERROR =>
            have : ¬ st.attempts < maxReconnectAttempts := by omega
            simp [step, hh, onConfirm, this, ha, ht]
        | TIMED_OUT =>
            have : ¬ st.attempts < maxReconnectAttempts := by omega
            simp [step, hh, onConfirm, this, ha, ht]
        | CLOSED => simp [Ev.isFailFlow] at hf
      · simp [step, hh, ha, ht, hs]
  | fire t en co => simp [step, ht, ha, hs]

theorem run_exhausted_preserve (evs : List Ev) :
    ∀ st : SState, (∀ e ∈ evs, e.isFailFlow = true) →
    st.attempts = maxReconnectAttempts → st.pending = [] →
    st.status = .error →
    (run st evs).attempts = maxReconnectAttempts ∧
    (run st evs).pending = [] ∧ (run st evs).status = .error := by
  induction evs with
  | nil => intro st _ ha ht hs; exact ⟨ha, ht, hs⟩
  | cons e rest ih =>
      intro st hf ha ht hs
      have h1 := step_exhausted_preserve st e (hf e (by simp)) ha ht hs
      rw [run_cons]
      exact ih (step st e) (fun x hx => hf x (by simp [hx])) h1.1 h1.2.1
        h1.2.2

/-- Claim C4: `attemptCount` never exceeds the configured maximum (10) along
any run from the initial state; and from a settled exhausted state (attempts
at the maximum, no timeout pending, status `error`), any further sequence of
failure confirmations and timeout firings — i.e. consecutive failures with
no intervening success and no manual operation — arms no retry timeout and
leaves status `error` and the counter at the maximum. -/
theorem attempt_count_bounded :
    (∀ evs : List Ev, (run init evs).attempts ≤ maxReconnectAttempts) ∧
    (∀ (st : SState) (evs : List Ev),
      st.attempts = maxReconnectAttempts → st.pending = [] →
      st.status = .error → (∀ e ∈ evs, e.isFailFlow = true) →
      (run st evs).status = .error ∧ (run st evs).pending = [] ∧
      (run st evs).attempts = maxReconnectAttempts) := by
  constructor
  · intro evs
    exact run_attempts_le evs init (by simp [init, maxReconnectAttempts])
  · intro st evs ha ht hs hf
    have h := run_exhausted_preserve evs st hf ha ht hs
    exact ⟨h.2.2, h.2.1, h.1⟩

/-- Witness for C4 at the concrete exhausted state: a further `TIMED_OUT`
confirmation and a (vacuous) firing of the spent timeout 9 leave status
`error`, nothing pending, counter at 10. -/
theorem attempt_count_bounded_witness :
    stExh.attempts = maxReconnectAttempts ∧
    (run stExh [.confirm 0 .TIMED_OUT, .fire 9 true true]).status
      = .error ∧
    (run stExh [.confirm 0 .TIMED_OUT, .fire 9 true true]).pending = [] :=
  ⟨rfl,
   (attempt_count_bounded.2 stExh [.confirm 0 .TIMED_OUT, .fire 9 true true]
     rfl rfl rfl (by decide)).1,
   (attempt_count_bounded.2 stExh [.confirm 0 .TIMED_OUT, .fire 9 true true]
     rfl rfl rfl (by decide)).2.1⟩

end SupabaseWS

namespace PlainWS

theorem wrun_cons (maxA : Nat) (st : WState) (e : WEv) (evs : List WEv) :
    wrun maxA st (e :: evs) = wrun maxA (wstep maxA st e) evs := rfl

theorem wstep_stopped_preserve (maxA : Nat) (st : WState) (e : WEv)
    (hm : st.manualClose = true) (hr : st.shouldRec = false)
    (ht : st.timer = false) (hw : st.ws = none) :
    (wstep maxA st e).manualClose = true ∧
    (wstep maxA st e).shouldRec = false ∧
    (wstep maxA st e).timer = false ∧ (wstep maxA st e).ws = none := by
  cases e with
  | openEv => simp [wstep, hw, hm, hr, ht]
  | closeEv =>
      by_cases hx : maxA ≤ st.attempts <;>
        simp [wstep, wOnClose, hm, hr, ht, hw, hx]
  | errEv => simp [wstep, wOnError, hm, hr, ht, hw]
  | fireEv co => simp [wstep, ht, hm, hr, hw]
  | discEv => simp [wstep, wdisconnect]

theorem wrun_stopped_preserve (maxA : Nat) (evs : List WEv) :
    ∀ st : WState, st.manualClose = true → st.shouldRec = false →
    st.timer = false → st.ws = none →
    (wrun maxA st evs).timer = false ∧ (wrun maxA st evs).ws = none := by
  induction evs with
  | nil => intro st _ _ ht hw; exact ⟨ht, hw⟩
  | cons e rest ih =>
      intro st hm hr ht hw
      have h1 := wstep_stopped_preserve maxA st e hm hr ht hw
      rw [wrun_cons]
      exact ih (wstep maxA st e) h1.1 h1.2.1 h1.2.2.1 h1.2.2.2

end PlainWS

/-- Counterexample to claim C3: on the concrete leaked-timeout trace, manual
`disconnect()` clears only the tracked timeout 1 — leaked timeout 0 stays
pending — and when it later fires (a non-manual event), an automatic retry
runs `connect()` and creates a new subscription (a handle is installed, the
id supply moves, status leaves `disconnected`), with no intervening
`connect()`/`reconnect()` call. -/
theorem disconnect_leaked_timer_cex :
    (SupabaseWS.run SupabaseWS.init
      (SupabaseWS.leakTrace ++ [.disc])).pending = [0] ∧
    SupabaseWS.Ev.isManual (.fire 0 true true) = false ∧
    (SupabaseWS.run SupabaseWS.init
      (SupabaseWS.leakTrace ++ [.disc, .fire 0 true true])).handle
      = some 1 ∧
    (SupabaseWS.run SupabaseWS.init
      (SupabaseWS.leakTrace ++ [.disc, .fire 0 true true])).status
      = .connecting := by
  decide

/-- Claim C3 as amended: after a manual `disconnect()`, no automatic retry
fires provided no retry timeout had been leaked by the failure branch's ref
overwrite.  In the enhanced channel, `disconnect` cancels the tracked
timeout and removes the channel; when every pending timeout was the tracked
one, any subsequent sequence of backend confirmations, timeout firings and
further disconnects — anything but an explicit `connect` or `reconnect` —
leaves nothing pending, installs no handle, and creates no new subscription
(the fresh-id supply does not move); a leaked timeout, by contrast,
survives and can fire a retry.  In the plain hook, `disconnect` sets the
manual-stop flags (`isManualCloseRef = true`, `shouldReconnectRef =
false`), so every late socket callback — even an `onclose` firing after the
ref was cleared — arms no retry and opens no socket. -/
theorem no_retry_after_manual_disconnect :
    (∀ (st : SupabaseWS.SState) (evs : List SupabaseWS.Ev),
      SupabaseWS.noLeakedTimer st →
      (∀ e ∈ evs, e.isManual = false) →
      (SupabaseWS.run (SupabaseWS.disconnect st) evs).pending = [] ∧
      (SupabaseWS.run (SupabaseWS.disconnect st) evs).handle = none ∧
      (SupabaseWS.run (SupabaseWS.disconnect st) evs).nextId = st.nextId) ∧
    (∀ (wst : PlainWS.WState) (maxA : Nat) (wevs : List PlainWS.WEv),
      (PlainWS.wdisconnect wst).manualClose = true ∧
      (PlainWS.wdisconnect wst).shouldRec = false ∧
      (PlainWS.wrun maxA (PlainWS.wdisconnect wst) wevs).timer = false ∧
      (PlainWS.wrun maxA (PlainWS.wdisconnect wst) wevs).ws = none) := by
  constructor
  · intro st evs hnl hm
    have h := SupabaseWS.run_nonmanual_preserve evs (SupabaseWS.disconnect st)
      hm (SupabaseWS.disconnect_pending_noLeak st hnl) (by simp)
    exact ⟨h.1, h.2.1, by simpa using h.2.2⟩
  · intro wst maxA wevs
    have h := PlainWS.wrun_stopped_preserve maxA wevs
      (PlainWS.wdisconnect wst) rfl rfl rfl rfl
    exact ⟨rfl, rfl, h.1, h.2⟩

/-- Witness for the amended C3 at a concrete live state (nothing pending,
hence nothing leaked): a failure confirmation, a timeout tick and a second
disconnect after the manual disconnect leave nothing pending. -/
theorem no_retry_after_manual_disconnect_witness :
    SupabaseWS.noLeakedTimer SupabaseWS.stLive ∧
    (∀ e ∈ ([.confirm 0 .CHANNEL_ERROR, .fire 0 true true, .disc] :
        List SupabaseWS.Ev), e.isManual = false) ∧
    (SupabaseWS.run (SupabaseWS.disconnect SupabaseWS.stLive)
      [.confirm 0 .CHANNEL_ERROR, .fire 0 true true, .disc]).pending
      = [] :=
  ⟨Or.inl rfl, by decide,
   (no_retry_after_manual_disconnect.1 SupabaseWS.stLive
     [.confirm 0 .CHANNEL_ERROR, .fire 0 true true, .disc] (Or.inl rfl)
     (by decide)).1⟩

namespace SupabaseWS

theorem inv_cleanupChannel (st : SState) (h : Inv st) :
    Inv (cleanupChannel st) := by
  obtain ⟨h1, h2⟩ := h
  cases hh : st.handle with
  | none =>
      unfold cleanupChannel
      rw [hh]
      exact ⟨h1.trans (by rw [hh]), h2⟩
  | some a =>
      unfold cleanupChannel
      rw [hh]
      constructor
      · have : st.live = [a] := by rw [h1, hh]; rfl
        simp [this]
      · intro x hx
        simp at hx

theorem inv_connect (en co : Bool) (st : SState) (h : Inv st) :
    Inv (connect en co st) := by
  cases en with
  | false =>
      obtain ⟨h1, h2⟩ := h
      exact ⟨h1, h2⟩
  | true =>
      have hc := inv_cleanupChannel st h
      have hlive : (cleanupChannel st).live = [] := by
        rw [hc.1, cleanupChannel_handle]
        rfl
      cases co with
      | false =>
          simp only [connect, Bool.not_true, Bool.false_eq_true, if_false,
            connectTry]
          exact ⟨hc.1, hc.2⟩
      | true =>
          simp only [connect, Bool.not_true, Bool.false_eq_true, if_false,
            connectTry, if_pos]
          refine ⟨?_, ?_⟩
          · simp [hlive, Option.toList]
          · intro x hx
            simp at hx ⊢
            omega

theorem inv_onConfirm (c : Confirm) (st : SState) (h : Inv st) :
    Inv (onConfirm c st) := by
  obtain ⟨h1, h2⟩ := h
  cases c with
  | SUBSCRIBED => exact ⟨h1, h2⟩
  | CHANNEL_ERROR =>
      by_cases hlt : st.attempts + 1 ≤ maxReconnectAttempts
      · simp [onConfirm, Nat.lt_iff_add_one_le, hlt]
        exact ⟨h1, h2⟩
      · simp [onConfirm, Nat.lt_iff_add_one_le, hlt]
        exact ⟨h1, h2⟩
  | TIMED_OUT =>
      by_cases hlt : st.attempts + 1 ≤ maxReconnectAttempts
      · simp [onConfirm, Nat.lt_iff_add_one_le, hlt]
        exact ⟨h1, h2⟩
      · simp [onConfirm, Nat.lt_iff_add_one_le, hlt]
        exact ⟨h1, h2⟩
  | CLOSED => exact ⟨h1, h2⟩

theorem inv_clearTracked (st : SState) (h : Inv st) :
    Inv (clearTracked st) := by
  obtain ⟨s, hd, n, l, r, tk, p, ti, a, e⟩ := st
  cases tk
  · exact h
  · exact ⟨h.1, h.2⟩

theorem inv_disconnect (st : SState) (h : Inv st) : Inv (disconnect st) := by
  have h2 := inv_cleanupChannel _ (inv_clearTracked st h)
  exact ⟨h2.1, h2.2⟩

theorem inv_step (st : SState) (e : Ev) (h : Inv st) : Inv (step st e) := by
  cases e with
  | conn en co => exact inv_connect en co st h
  | disc => exact inv_disconnect st h
  | recon en co =>
      have hp : Inv (reconnectPre st) := by
        have := inv_disconnect st h
        exact ⟨this.1, this.2⟩
      exact inv_connect en co _ hp
  | confirm hd c =>
      by_cases hh : st.handle = some hd
      · simp only [step, hh, if_pos rfl]
        exact inv_onConfirm c st h
      · simpa [step, hh] using h
  | fire t en co =>
      by_cases ht : t ∈ st.pending
      · simp only [step, ht, if_pos]
        exact inv_connect en co _ ⟨h.1, h.2⟩
      · simpa [step, ht] using h

theorem inv_run (evs : List Ev) :
    ∀ st : SState, Inv st → Inv (run st evs) := by
  induction evs with
  | nil => intro st h; exact h
  | cons e rest ih =>
      intro st h
      rw [run_cons]
      exact ih (step st e) (inv_step st e h)

/-- Claim C5: along every run from the initial state, the backend holds at
most one live subscription for this channel; and whenever `connect()`
replaces a held handle, the prior handle is released (passed to
`removeChannel`) and is no longer live afterwards — no handle is leaked
across any number of reconnect cycles. -/
theorem at_most_one_live_handle :
    (∀ evs : List Ev, (run init evs).live.length ≤ 1) ∧
    (∀ (evs : List Ev) (h : Nat) (co : Bool),
      (run init evs).handle = some h →
      h ∈ (connect true co (run init evs)).released ∧
      h ∉ (connect true co (run init evs)).live) := by
  have hinit : Inv init := by
    constructor
    · rfl
    · intro x hx
      simp [init] at hx
  constructor
  · intro evs
    have h := inv_run evs init hinit
    rw [h.1]
    cases (run init evs).handle <;> simp
  · intro evs h co hh
    have hI := inv_run evs init hinit
    set st := run init evs with hst
    have hrel : (cleanupChannel st).released = h :: st.released :=
      cleanupChannel_released st h hh
    have hlive : (cleanupChannel st).live = [] := by
      rw [(inv_cleanupChannel st hI).1, cleanupChannel_handle]
      rfl
    have hlt : h < st.nextId := hI.2 h hh
    constructor
    · cases co with
      | false => simp [connect, connectTry, hrel]
      | true => simp [connect, connectTry, hrel]
    · cases co with
      | false => simp [connect, connectTry, hlive]
      | true =>
          simp [connect, connectTry, hlive]
          omega

/-- Witness for C5: after a first successful connect the channel holds
handle 0, and a replacing connect releases it. -/
theorem at_most_one_live_handle_witness :
    (run init [Ev.conn true true]).handle = some 0 ∧
    0 ∈ (connect true true (run init [Ev.conn true true])).released ∧
    0 ∉ (connect true true (run init [Ev.conn true true])).live :=
  ⟨by decide,
   (at_most_one_live_handle.2 [Ev.conn true true] 0 true (by decide)).1,
   (at_most_one_live_handle.2 [Ev.conn true true] 0 true (by decide)).2⟩

end SupabaseWS
